import Mathlib

/-!
# minecraft-server-backup: the RCON controller and the backup sequence of `main.go`

A shallow embedding of `ServerController` (`Command`, `Tell`, `SetProgress`,
`ShowBossbar`, `HideBossbar`) and of `Backup`.

Modelling choices:

* Go strings are Lean `String`s (sequences of Unicode code points, that is, valid UTF-8 text).
* The RCON connection (`*rcon.RemoteConsole`, an external library) is an arbitrary
  deterministic machine `Rcon σ` over a connection state `σ`; quantifying over `σ` and the
  machine covers every behaviour the transport can show in a run.
* Every effect is recorded, in order, in a trace of `Event`s: each `Write` attempt, each
  `Read`, each log line, each sleep and the run of the external process.
* The external process (`exec.Cmd`) is given by its observable outcome, a `Process`.
* `m.rcon` is a pointer that never changes after `Init`; the state it points to is the
  `conn` field of `World`, next to the controller's own fields.
-/

namespace MinecraftBackup

/-! ## Go standard library functions used by the source -/

/-- Decimal rendering of an integer, as `strconv.Itoa`. -/
def Itoa (i : Int) : String :=
  match i with
  | Int.ofNat n => Nat.repr n
  | Int.negSucc n => "-" ++ Nat.repr (n + 1)

/-- Go `strings.HasPrefix(s, pre)`: does `s` begin with `pre`. -/
def HasPrefix (s pre : String) : Bool :=
  pre.data.isPrefixOf s.data

/-- Go `unicode.IsSpace`: the code points with the Unicode White_Space property. -/
def isSpace (c : Char) : Bool :=
  let n := c.toNat
  n == 0x09 || n == 0x0A || n == 0x0B || n == 0x0C || n == 0x0D || n == 0x20 ||
  n == 0x85 || n == 0xA0 || n == 0x1680 || (0x2000 ≤ n && n ≤ 0x200A) ||
  n == 0x2028 || n == 0x2029 || n == 0x202F || n == 0x205F || n == 0x3000

/-- Go `strings.TrimSpace`: drop the leading and the trailing white space. -/
def TrimSpace (s : String) : String :=
  String.mk ((s.data.dropWhile isSpace).reverse.dropWhile isSpace).reverse

/-- The scanning loop of `strings.Split` for a non-empty separator: `skip` counts the
characters of a matched separator still to be stepped over, `cur` holds the current
piece in reverse. -/
def splitLoop (sep : List Char) : Nat → List Char → List Char → List (List Char)
  | _, [], cur => [cur.reverse]
  | skip + 1, _ :: cs, cur => splitLoop sep skip cs cur
  | 0, c :: cs, cur =>
    if sep.isPrefixOf (c :: cs) then cur.reverse :: splitLoop sep (sep.length - 1) cs []
    else splitLoop sep 0 cs (c :: cur)

/-- Go `strings.Split(s, sep)`: the pieces of `s` between the occurrences of `sep`; with an
empty separator the string is exploded into its characters. -/
def Split (s sep : String) : List String :=
  if sep.data = [] then s.data.map (fun c => String.mk [c])
  else (splitLoop sep.data 0 s.data []).map String.mk

/-! ## Data model -/

/-- An error produced by the RCON library (a failed write or read). -/
structure TransportError where
  msg : String
  deriving DecidableEq, Repr

/-- A Go `error` value as seen by the callers of the controller: either an error of the
transport or the program's own `CommandError`. -/
inductive GoError where
  | transport (e : TransportError)
  | CommandError (reason : String)
  deriving DecidableEq, Repr

/-- The method `Error()` of an error value. -/
def GoError.Error : GoError → String
  | .transport e => e.msg
  | .CommandError reason => reason

/-- The fields of `ServerController` other than the connection pointer. -/
structure ServerController where
  hasBossBar : Bool
  bossBarSelector : String
  broadcastSelector : String
  detailSelector : String
  WarningDelay : Int
  deriving DecidableEq, Repr

/-- The RCON connection: `Write` sends a command and returns a request id, `Read` returns
the next response with its request id; either may fail. -/
structure Rcon (σ : Type) where
  Write : σ → String → σ × Int × Option TransportError
  Read : σ → σ × String × Int × Option TransportError

/-- What the program does to the outside world, in order. -/
inductive Event where
  | write (command : String)
  | read
  | log (line : String)
  | sleep (ms : Nat)
  | exec
  deriving DecidableEq, Repr

/-- The controller, the state of its connection and the trace of effects so far. -/
structure World (σ : Type) where
  server : ServerController
  conn : σ
  trace : List Event

/-- The commands written to the connection, in order. -/
def commands (t : List Event) : List String :=
  t.filterMap (fun e => match e with | .write c => some c | _ => none)

/-- The number of reads from the connection. -/
def reads (t : List Event) : Nat :=
  t.count Event.read

/-- The observable outcome of `exec.Command("restic", ...)`: `cmdString` is `cmd.String()`,
`out` the combined output, `err` the text of the error of `CombinedOutput` (absent on
success) and `exitCode` the value of `cmd.ProcessState.ExitCode()` (`-1` when the process
never started). -/
structure Process where
  cmdString : String
  out : String
  err : Option String
  exitCode : Int

variable {σ : Type}

/-- The effect of `log.Println`. -/
def logPrintln (line : String) (w : World σ) : World σ :=
  { w with trace := w.trace ++ [Event.log line] }

/-- The effect of `time.Sleep`. -/
def Sleep (ms : Nat) (w : World σ) : World σ :=
  { w with trace := w.trace ++ [Event.sleep ms] }

/-! ## The controller -/

/-- `ServerController.Command`. -/
def Command (rc : Rcon σ) (command : String) (w : World σ) :
    (String × Option TransportError) × World σ :=
  match rc.Write w.conn command with
  | (c1, sendId, werr) =>
    let w1 : World σ := { w with conn := c1, trace := w.trace ++ [Event.write command] }
    match werr with
    | some e => (("", some e), w1)
    | none =>
      match rc.Read c1 with
      | (c2, response, responseId, rerr) =>
        let w2 : World σ := { w1 with conn := c2, trace := w1.trace ++ [Event.read] }
        match rerr with
        | some e => ((response, some e), w2)
        | none =>
          if sendId ≠ responseId then
            ((response, none), logPrintln "Rcon message ID mismatch." w2)
          else ((response, none), w2)

/-- The command string built by `Tell`. -/
def tellraw (selector message colour : String) : String :=
  "tellraw " ++ selector ++ " [\x7b\"text\":\"[Backup]\",\"color\":\"aqua\"\x7d,\x7b\"text\":\" "
    ++ message ++ "\",\"color\":\"" ++ colour ++ "\"\x7d]"

/-- `ServerController.Tell`. -/
def Tell (rc : Rcon σ) (selector message colour : String) (w : World σ) :
    Option GoError × World σ :=
  let colour := if colour = "" then "gray" else colour
  match Command rc (tellraw selector message colour) w with
  | ((response, err), w1) =>
    if response ≠ "" then (some (GoError.CommandError response), w1)
    else (err.map GoError.transport, w1)

/-- `ServerController.SetProgress`. -/
def SetProgress (rc : Rcon σ) (title : String) (value : Int) (w : World σ) :
    Option GoError × World σ :=
  match Tell rc w.server.detailSelector title "" w with
  | (some e, w1) => (some e, w1)
  | (none, w1) =>
    if w1.server.hasBossBar then
      match Command rc ("bossbar set backup:active value " ++ Itoa value) w1 with
      | ((_, some e), w2) => (some (GoError.transport e), w2)
      | ((_, none), w2) =>
        match Command rc ("bossbar set backup:active name \"Backup: " ++ title ++ "\"") w2 with
        | ((_, some e), w3) => (some (GoError.transport e), w3)
        | ((_, none), w3) => (none, w3)
    else (none, w1)

/-- `ServerController.ShowBossbar`. -/
def ShowBossbar (rc : Rcon σ) (w : World σ) : Option GoError × World σ :=
  match Command rc ("bossbar set backup:active players " ++ w.server.bossBarSelector) w with
  | ((_, some e), w1) => (some (GoError.transport e), w1)
  | ((response, none), w1) =>
    if HasPrefix "No bossbar exists with the ID" response then
      (some (GoError.CommandError response), w1)
    else
      match Command rc "bossbar set backup:active visible true" w1 with
      | ((_, some e), w2) => (some (GoError.transport e), w2)
      | ((_, none), w2) =>
        (none, { w2 with server := { w2.server with hasBossBar := true } })

/-- `ServerController.HideBossbar`. -/
def HideBossbar (rc : Rcon σ) (w : World σ) : Option GoError × World σ :=
  match Command rc "bossbar set backup:active visible false" w with
  | ((_, some e), w1) => (some (GoError.transport e), w1)
  | ((_, none), w1) =>
    (none, { w1 with server := { w1.server with hasBossBar := false } })

/-! ## The backup sequence -/

/-- How a call of `Backup` ends: it returns, or an index out of range panics. -/
inductive Outcome where
  | returned
  | panicked
  deriving DecidableEq, Repr

/-- The lines of the captured output, as computed in `Backup`. -/
def outputLines (output : String) : List String :=
  Split (TrimSpace output) "\n"

/-- The first half of `Backup`: up to and including the call of `cmd.CombinedOutput()`. -/
def BackupStart (rc : Rcon σ) (proc : Process) (w : World σ) : World σ :=
  let w := (SetProgress rc "Saving Worlds" 10 w).2
  let w := (Command rc "save-off" w).2
  let w := (Command rc "save-all" w).2
  let w := Sleep 1000 w
  let w := (SetProgress rc "Running restic" 50 w).2
  let w := logPrintln proc.cmdString w
  let w := (Tell rc w.server.detailSelector proc.cmdString "" w).2
  { w with trace := w.trace ++ [Event.exec] }

/-- The branch `if err != nil` of `Backup` after the process has returned. -/
def reportFailure (rc : Rcon σ) (proc : Process) (w : World σ) : World σ :=
  match proc.err with
  | some e =>
    let w := logPrintln ("restic Failed " ++ e) w
    let w := (Tell rc w.server.detailSelector ("Failed backup. Exit: " ++ Itoa proc.exitCode)
      "red" w).2
    (Tell rc w.server.detailSelector e "red" w).2
  | none => w

/-- The loop `for _, line := range lines` of `Backup`. -/
def announceLines (rc : Rcon σ) (lines : List String) (w : World σ) : World σ :=
  lines.foldl (fun w line => (Tell rc w.server.detailSelector line "" w).2) w

/-- `Backup`. The deferred `server.Command("save-on")` runs when the function leaves,
whether it returns or panics at `lines[len(lines)-1]`. -/
def Backup (rc : Rcon σ) (proc : Process) (w : World σ) : Outcome × World σ :=
  let w := BackupStart rc proc w
  let w := reportFailure rc proc w
  let output := proc.out
  let w := logPrintln output w
  let lines := outputLines output
  let w := announceLines rc lines w
  match lines[lines.length - 1]? with
  | some title =>
    let w := (SetProgress rc title 100 w).2
    (Outcome.returned, (Command rc "save-on" w).2)
  | none => (Outcome.panicked, (Command rc "save-on" w).2)

/-! ## Concrete transports, processes and states -/

/-- A transport that accepts every command and answers with the next text of a script,
and with the empty response once the script is used up; ids always match. -/
def scripted : Rcon (List String) where
  Write := fun q _ => (q, 0, none)
  Read := fun q => (q.tail, q.headD "", 0, none)

/-- A transport on which every write fails. -/
def broken : Rcon Unit where
  Write := fun _ _ => ((), 0, some ⟨"broken pipe"⟩)
  Read := fun _ => ((), "", 0, some ⟨"broken pipe"⟩)

/-- A transport whose responses carry an id different from the id of the request. -/
def mismatched : Rcon Unit where
  Write := fun _ _ => ((), 1, none)
  Read := fun _ => ((), "ok", 2, none)

/-- A transport whose reads fail. -/
def deaf : Rcon Unit where
  Write := fun _ _ => ((), 1, none)
  Read := fun _ => ((), "", 0, some ⟨"EOF"⟩)

/-- The controller as `Init` leaves it when no environment variable is set. -/
def defaultServer : ServerController :=
  { hasBossBar := false, bossBarSelector := "@a", broadcastSelector := "@a",
    detailSelector := "@a[tag=backups]", WarningDelay := 5 }

/-! ## Basic facts -/

theorem commands_append (t u : List Event) : commands (t ++ u) = commands t ++ commands u := by
  simp [commands]

theorem reads_append (t u : List Event) : reads (t ++ u) = reads t + reads u := by
  simp [reads]

theorem Command_trace (rc : Rcon σ) (command : String) (w : World σ) :
    (Command rc command w).2.trace = w.trace ++ Event.write command ::
      (if (rc.Write w.conn command).2.2 = none then
        Event.read ::
          (if (rc.Read (rc.Write w.conn command).1).2.2.2 = none ∧
              (rc.Write w.conn command).2.1 ≠ (rc.Read (rc.Write w.conn command).1).2.2.1
            then [Event.log "Rcon message ID mismatch."] else [])
      else []) := by
  unfold Command
  rcases hW : rc.Write w.conn command with ⟨c1, sendId, werr⟩
  rcases hR : rc.Read c1 with ⟨c2, response, responseId, rerr⟩
  cases werr <;> cases rerr <;> simp [hR, logPrintln]
  split <;> simp [*]

theorem Command_result (rc : Rcon σ) (command : String) (w : World σ) :
    (Command rc command w).1 =
      if (rc.Write w.conn command).2.2 = none then
        ((rc.Read (rc.Write w.conn command).1).2.1, (rc.Read (rc.Write w.conn command).1).2.2.2)
      else ("", (rc.Write w.conn command).2.2) := by
  unfold Command
  rcases hW : rc.Write w.conn command with ⟨c1, sendId, werr⟩
  rcases hR : rc.Read c1 with ⟨c2, response, responseId, rerr⟩
  cases werr <;> cases rerr <;> simp [hR]
  split <;> simp

theorem Command_server (rc : Rcon σ) (command : String) (w : World σ) :
    (Command rc command w).2.server = w.server := by
  unfold Command
  rcases hW : rc.Write w.conn command with ⟨c1, sendId, werr⟩
  rcases hR : rc.Read c1 with ⟨c2, response, responseId, rerr⟩
  cases werr <;> cases rerr <;> simp [hR, logPrintln]
  split <;> simp

theorem Command_commands (rc : Rcon σ) (command : String) (w : World σ) :
    commands (Command rc command w).2.trace = commands w.trace ++ [command] := by
  rw [Command_trace]
  split <;> [split; skip] <;> simp [commands]

theorem Tell_eq (rc : Rcon σ) (selector message colour : String) (w : World σ) :
    Tell rc selector message colour w =
      let r := Command rc (tellraw selector message (if colour = "" then "gray" else colour)) w
      (if r.1.1 ≠ "" then some (GoError.CommandError r.1.1) else r.1.2.map GoError.transport,
        r.2) := by
  unfold Tell
  rcases h : Command rc (tellraw selector message (if colour = "" then "gray" else colour)) w
    with ⟨⟨response, err⟩, w1⟩
  by_cases hr : response = "" <;> simp [hr, h]

theorem Tell_server (rc : Rcon σ) (selector message colour : String) (w : World σ) :
    (Tell rc selector message colour w).2.server = w.server := by
  simp [Tell_eq, Command_server]

theorem Tell_commands (rc : Rcon σ) (selector message colour : String) (w : World σ) :
    commands (Tell rc selector message colour w).2.trace =
      commands w.trace ++ [tellraw selector message (if colour = "" then "gray" else colour)] := by
  simp [Tell_eq, Command_commands]

theorem SetProgress_server (rc : Rcon σ) (title : String) (value : Int) (w : World σ) :
    (SetProgress rc title value w).2.server = w.server := by
  unfold SetProgress
  have hT := Tell_server rc w.server.detailSelector title "" w
  rcases h : Tell rc w.server.detailSelector title "" w with ⟨_ | e, w1⟩
  · rw [h] at hT
    simp only at hT ⊢
    split
    · have h2 := Command_server rc ("bossbar set backup:active value " ++ Itoa value) w1
      rcases hc : Command rc ("bossbar set backup:active value " ++ Itoa value) w1
        with ⟨⟨r2, _ | e2⟩, w2⟩
      · rw [hc] at h2
        simp only at h2 ⊢
        have h3 := Command_server rc ("bossbar set backup:active name \"Backup: " ++ title ++ "\"") w2
        rcases hd : Command rc ("bossbar set backup:active name \"Backup: " ++ title ++ "\"") w2
          with ⟨⟨r3, _ | e3⟩, w3⟩ <;> rw [hd] at h3 <;> simp_all
      · rw [hc] at h2
        simp_all
    · exact hT
  · rw [h] at hT
    exact hT

/-- The commands written by one call of `SetProgress`: the announcement of the title, then,
only when the boss bar is shown, an initial part of the two boss bar updates. -/
theorem SetProgress_commands (rc : Rcon σ) (title : String) (value : Int) (w : World σ) :
    ∃ bar : List String,
      commands (SetProgress rc title value w).2.trace =
        commands w.trace ++ tellraw w.server.detailSelector title "gray" :: bar ∧
      bar <+: ["bossbar set backup:active value " ++ Itoa value,
               "bossbar set backup:active name \"Backup: " ++ title ++ "\""] ∧
      (w.server.hasBossBar = false → bar = []) := by
  unfold SetProgress
  have hT := Tell_server rc w.server.detailSelector title "" w
  have hC := Tell_commands rc w.server.detailSelector title "" w
  rcases h : Tell rc w.server.detailSelector title "" w with ⟨_ | e, w1⟩
  · rw [h] at hT hC
    simp only [if_true] at hT hC ⊢
    by_cases hb : w1.server.hasBossBar = true
    · rw [if_pos hb]
      have h2 := Command_commands rc ("bossbar set backup:active value " ++ Itoa value) w1
      rcases hc : Command rc ("bossbar set backup:active value " ++ Itoa value) w1
        with ⟨⟨r2, _ | e2⟩, w2⟩
      · rw [hc] at h2
        simp only at h2 ⊢
        have h3 := Command_commands rc
          ("bossbar set backup:active name \"Backup: " ++ title ++ "\"") w2
        rcases hd : Command rc ("bossbar set backup:active name \"Backup: " ++ title ++ "\"") w2
          with ⟨⟨r3, _ | e3⟩, w3⟩ <;> rw [hd] at h3 <;>
          exact ⟨_, by simp only [h3, h2, hC, List.append_assoc, List.singleton_append]; rfl,
            List.prefix_refl _, by intro hf; rw [← hT, hb] at hf; cases hf⟩
      · rw [hc] at h2
        refine ⟨["bossbar set backup:active value " ++ Itoa value], ?_, ?_, ?_⟩
        · simp [h2, hC]
        · exact ⟨[_], rfl⟩
        · intro hf; rw [← hT, hb] at hf; cases hf
    · rw [if_neg hb]
      exact ⟨[], by simp [hC], List.nil_prefix, fun _ => rfl⟩
  · rw [h] at hT hC
    simp only [if_true] at hT hC ⊢
    exact ⟨[], by simp [hC], List.nil_prefix, fun _ => rfl⟩

theorem tellraw_data (selector message colour : String) :
    (tellraw selector message colour).data =
      't' :: 'e' :: 'l' :: 'l' :: 'r' :: 'a' :: 'w' :: ' ' ::
        (selector.data ++ (" [\x7b\"text\":\"[Backup]\",\"color\":\"aqua\"\x7d,\x7b\"text\":\" ".data
          ++ (message.data ++ ("\",\"color\":\"".data ++ (colour.data ++ "\"\x7d]".data))))) := by
  simp [tellraw, String.data_append]

/-! ## The claims about the controller -/

/-- C1: with `hasBossBar = false`, `SetProgress` writes exactly one command, the `tellraw`
announcement of the title to the detail selector in the colour gray; that command is not
a `bossbar set backup:active` command, and `hasBossBar` is still false afterwards. -/
theorem SetProgress_without_bossbar (rc : Rcon σ) (title : String) (value : Int) (w : World σ)
    (h : w.server.hasBossBar = false) :
    ∃ sent : List String,
      commands (SetProgress rc title value w).2.trace = commands w.trace ++ sent ∧
      sent = [tellraw w.server.detailSelector title "gray"] ∧
      (∀ c ∈ sent, HasPrefix c "bossbar set backup:active" = false) ∧
      (SetProgress rc title value w).2.server.hasBossBar = false := by
  obtain ⟨bar, hc, -, hb⟩ := SetProgress_commands rc title value w
  refine ⟨[tellraw w.server.detailSelector title "gray"], ?_, rfl, ?_, ?_⟩
  · rw [hc, hb h]
  · intro c hc
    rw [List.mem_singleton] at hc
    subst hc
    simp only [HasPrefix, tellraw_data]
    rfl
  · rw [SetProgress_server, h]

theorem SetProgress_without_bossbar_witness :
    ∃ sent : List String,
      commands (SetProgress broken "Saving Worlds" 10 ⟨defaultServer, (), []⟩).2.trace =
        commands [] ++ sent ∧
      sent = [tellraw "@a[tag=backups]" "Saving Worlds" "gray"] ∧
      (∀ c ∈ sent, HasPrefix c "bossbar set backup:active" = false) ∧
      (SetProgress broken "Saving Worlds" 10 ⟨defaultServer, (), []⟩).2.server.hasBossBar
        = false :=
  SetProgress_without_bossbar broken "Saving Worlds" 10 ⟨defaultServer, (), []⟩ rfl

/-- C2 (the code at the failing input): when the transport answers the audience
assignment with "No bossbar exists with the ID 'backup:active'", `ShowBossbar` still
sends `visible true`, returns no error and sets `hasBossBar = true`. -/
theorem ShowBossbar_absent_indicator_not_detected :
    HasPrefix "No bossbar exists with the ID"
        "No bossbar exists with the ID 'backup:active'" = false ∧
      (ShowBossbar scripted
        ⟨defaultServer, ["No bossbar exists with the ID 'backup:active'"], []⟩).1 = none ∧
      commands (ShowBossbar scripted
        ⟨defaultServer, ["No bossbar exists with the ID 'backup:active'"], []⟩).2.trace =
        ["bossbar set backup:active players @a", "bossbar set backup:active visible true"] ∧
      (ShowBossbar scripted
        ⟨defaultServer, ["No bossbar exists with the ID 'backup:active'"], []⟩).2.server.hasBossBar
        = true := by
  decide

/-- C3 (the code at the failing input): when the transport accepts every command with the
empty response, `ShowBossbar` returns a `CommandError` with the empty reason after the
audience assignment, never sends `visible true` and leaves `hasBossBar = false`. -/
theorem ShowBossbar_empty_response_rejected :
    HasPrefix "No bossbar exists with the ID" "" = true ∧
      (ShowBossbar scripted ⟨defaultServer, [], []⟩).1 = some (GoError.CommandError "") ∧
      commands (ShowBossbar scripted ⟨defaultServer, [], []⟩).2.trace =
        ["bossbar set backup:active players @a"] ∧
      (ShowBossbar scripted ⟨defaultServer, [], []⟩).2.server.hasBossBar = false := by
  decide

/-- C4 (counterexample): on a transport whose writes fail, `HideBossbar` called with
`hasBossBar = true` returns the transport error and leaves `hasBossBar = true`. -/
theorem HideBossbar_keeps_flag_on_failure :
    (HideBossbar broken ⟨{ defaultServer with hasBossBar := true }, (), []⟩).1 =
        some (GoError.transport ⟨"broken pipe"⟩) ∧
      (HideBossbar broken
        ⟨{ defaultServer with hasBossBar := true }, (), []⟩).2.server.hasBossBar = true := by
  decide

/-- C4 (amended): `HideBossbar` never changes the three selectors or `WarningDelay`, and
called with `hasBossBar = false` it leaves the controller unchanged; when its round trip
succeeds (it returns no error) `hasBossBar` is false afterwards and a second consecutive
call leaves the controller as the first one left it; when the round trip fails it returns
the transport error and the controller is unchanged. -/
theorem HideBossbar_clears_flag (rc : Rcon σ) (w : World σ) :
    (HideBossbar rc w).2.server.bossBarSelector = w.server.bossBarSelector ∧
      (HideBossbar rc w).2.server.broadcastSelector = w.server.broadcastSelector ∧
      (HideBossbar rc w).2.server.detailSelector = w.server.detailSelector ∧
      (HideBossbar rc w).2.server.WarningDelay = w.server.WarningDelay ∧
      (HideBossbar rc w).1 =
        (Command rc "bossbar set backup:active visible false" w).1.2.map GoError.transport ∧
      (w.server.hasBossBar = false → (HideBossbar rc w).2.server = w.server) ∧
      ((HideBossbar rc w).1 = none →
        (HideBossbar rc w).2.server.hasBossBar = false ∧
        (HideBossbar rc (HideBossbar rc w).2).2.server = (HideBossbar rc w).2.server) ∧
      ((HideBossbar rc w).1 ≠ none → (HideBossbar rc w).2.server = w.server) := by
  have hres : (HideBossbar rc w).1 =
      (Command rc "bossbar set backup:active visible false" w).1.2.map GoError.transport := by
    unfold HideBossbar
    rcases Command rc "bossbar set backup:active visible false" w with ⟨⟨r, _ | e⟩, v1⟩ <;> rfl
  have key : ∀ v : World σ,
      ((HideBossbar rc v).1 = none ∧
        (HideBossbar rc v).2.server = { v.server with hasBossBar := false }) ∨
      ((HideBossbar rc v).1 ≠ none ∧ (HideBossbar rc v).2.server = v.server) := by
    intro v
    unfold HideBossbar
    have hs := Command_server rc "bossbar set backup:active visible false" v
    rcases hc : Command rc "bossbar set backup:active visible false" v with ⟨⟨r, _ | e⟩, v1⟩
    · left; rw [hc] at hs; simp only at hs; simp [hs]
    · right; rw [hc] at hs; simp only at hs; simp [hs]
  rcases key w with ⟨h1, h2⟩ | ⟨h1, h2⟩
  · refine ⟨by rw [h2], by rw [h2], by rw [h2], by rw [h2], hres, ?_, ?_, ?_⟩
    · intro hf; rw [h2]; cases hs : w.server; rw [hs] at hf; simp only at hf; subst hf; rfl
    · intro _
      refine ⟨by rw [h2], ?_⟩
      rcases key (HideBossbar rc w).2 with ⟨-, h4⟩ | ⟨-, h4⟩
      · rw [h4, h2]
      · exact h4
    · intro hn; exact absurd h1 hn
  · refine ⟨by rw [h2], by rw [h2], by rw [h2], by rw [h2], hres, fun _ => h2, ?_,
      fun _ => h2⟩
    intro hn; exact absurd hn h1

theorem HideBossbar_clears_flag_witness :
    (HideBossbar scripted ⟨{ defaultServer with hasBossBar := true }, [], []⟩).1 = none ∧
      (HideBossbar scripted
        ⟨{ defaultServer with hasBossBar := true }, [], []⟩).2.server.hasBossBar = false ∧
      (HideBossbar scripted (HideBossbar scripted
        ⟨{ defaultServer with hasBossBar := true }, [], []⟩).2).2.server =
        (HideBossbar scripted ⟨{ defaultServer with hasBossBar := true }, [], []⟩).2.server :=
  ⟨by decide,
   (HideBossbar_clears_flag scripted
      ⟨{ defaultServer with hasBossBar := true }, [], []⟩).2.2.2.2.2.2.1 (by decide)⟩

/-- C5: `Tell` writes exactly one command, the `tellraw` line built from the unmodified
selector and message with an empty colour replaced by gray; its result is a
`CommandError` carrying the response exactly when the response of the round trip is not
empty, and otherwise the transport error of the round trip (none when it succeeded). -/
theorem Tell_one_command (rc : Rcon σ) (selector message colour : String) (w : World σ) :
    commands (Tell rc selector message colour w).2.trace =
        commands w.trace ++ [tellraw selector message (if colour = "" then "gray" else colour)] ∧
      (Tell rc selector message colour w).2 =
        (Command rc (tellraw selector message (if colour = "" then "gray" else colour)) w).2 ∧
      Tell rc selector message "" w = Tell rc selector message "gray" w ∧
      ((∃ reason, (Tell rc selector message colour w).1 = some (GoError.CommandError reason)) ↔
        (Command rc (tellraw selector message (if colour = "" then "gray" else colour)) w).1.1
          ≠ "") ∧
      (Tell rc selector message colour w).1 =
        (if (Command rc (tellraw selector message
              (if colour = "" then "gray" else colour)) w).1.1 ≠ "" then
          some (GoError.CommandError (Command rc (tellraw selector message
            (if colour = "" then "gray" else colour)) w).1.1)
        else (Command rc (tellraw selector message
            (if colour = "" then "gray" else colour)) w).1.2.map GoError.transport) := by
  refine ⟨Tell_commands rc selector message colour w, by simp [Tell_eq], ?_, ?_, by simp [Tell_eq]⟩
  · simp [Tell_eq]
  · rw [Tell_eq]
    rcases Command rc (tellraw selector message (if colour = "" then "gray" else colour)) w
      with ⟨⟨response, err⟩, w1⟩
    by_cases hr : response = ""
    · cases err <;> simp [hr]
    · simp [hr]

/-- C6: `Command` performs one write and, only when the write succeeded, one read; a
failed write gives the empty text with the write error, otherwise the result is the
response text with the error of the read, whatever the two request ids are: a
mismatch only adds a log line. -/
theorem Command_one_response_per_send (rc : Rcon σ) (command : String) (w : World σ)
    (c1 c2 : σ) (sendId responseId : Int) (werr rerr : Option TransportError)
    (response : String)
    (hW : rc.Write w.conn command = (c1, sendId, werr))
    (hR : rc.Read c1 = (c2, response, responseId, rerr)) :
    (Command rc command w).2.trace = w.trace ++ Event.write command ::
        (if werr = none then
          Event.read :: (if rerr = none ∧ sendId ≠ responseId
            then [Event.log "Rcon message ID mismatch."] else [])
        else []) ∧
      commands (Command rc command w).2.trace = commands w.trace ++ [command] ∧
      reads (Command rc command w).2.trace = reads w.trace + (if werr = none then 1 else 0) ∧
      (Command rc command w).1 = (if werr = none then (response, rerr) else ("", werr)) := by
  have ht := Command_trace rc command w
  have hr := Command_result rc command w
  simp only [hW, hR] at ht hr
  refine ⟨ht, Command_commands rc command w, ?_, hr⟩
  rw [ht]
  cases werr <;> cases rerr <;> simp [reads, List.count_cons]
  split <;> simp [List.count_cons]

theorem Command_one_response_per_send_witness :
    mismatched.Write () "save-all" = ((), 1, none) ∧
      mismatched.Read () = ((), "ok", 2, none) ∧
      (Command mismatched "save-all" ⟨defaultServer, (), []⟩).2.trace =
        [Event.write "save-all", Event.read, Event.log "Rcon message ID mismatch."] ∧
      commands (Command mismatched "save-all" ⟨defaultServer, (), []⟩).2.trace = ["save-all"] ∧
      reads (Command mismatched "save-all" ⟨defaultServer, (), []⟩).2.trace = 1 ∧
      (Command mismatched "save-all" ⟨defaultServer, (), []⟩).1 = ("ok", none) :=
  ⟨rfl, rfl, by
    simpa [reads] using Command_one_response_per_send mismatched "save-all"
      ⟨defaultServer, (), []⟩ () () 1 2 none none "ok" rfl rfl⟩

/-! ## Facts about the backup sequence -/

theorem logPrintln_commands (line : String) (w : World σ) :
    commands (logPrintln line w).trace = commands w.trace := by
  simp [logPrintln, commands]

theorem logPrintln_server (line : String) (w : World σ) :
    (logPrintln line w).server = w.server := rfl

theorem Sleep_commands (ms : Nat) (w : World σ) :
    commands (Sleep ms w).trace = commands w.trace := by
  simp [Sleep, commands]

theorem Sleep_server (ms : Nat) (w : World σ) : (Sleep ms w).server = w.server := rfl

theorem splitLoop_ne_nil (sep : List Char) (l : List Char) :
    ∀ (skip : Nat) (cur : List Char), splitLoop sep skip l cur ≠ [] := by
  induction l with
  | nil => intro skip cur; cases skip <;> simp [splitLoop]
  | cons c cs ih =>
    intro skip cur
    cases skip with
    | zero =>
      simp only [splitLoop]
      split
      · simp
      · exact ih 0 _
    | succ n => simp only [splitLoop]; exact ih n cur

theorem outputLines_ne_nil (output : String) : outputLines output ≠ [] := by
  have h : ("\n" : String).data = ['\n'] := rfl
  simp [outputLines, Split, h, splitLoop_ne_nil]

theorem outputLines_last (output : String) :
    ∃ last, (outputLines output)[(outputLines output).length - 1]? = some last ∧
      (outputLines output).getLast? = some last := by
  have h := outputLines_ne_nil output
  rw [← List.getLast?_eq_getElem?]
  cases hl : (outputLines output).getLast? with
  | none => exact absurd (List.getLast?_eq_none_iff.mp hl) h
  | some last => exact ⟨last, rfl, rfl⟩

theorem announceLines_server (rc : Rcon σ) (lines : List String) :
    ∀ w : World σ, (announceLines rc lines w).server = w.server := by
  induction lines with
  | nil => intro w; rfl
  | cons line rest ih =>
    intro w
    simp only [announceLines, List.foldl_cons] at ih ⊢
    rw [ih, Tell_server]

theorem announceLines_commands (rc : Rcon σ) (lines : List String) :
    ∀ w : World σ, commands (announceLines rc lines w).trace =
      commands w.trace ++ lines.map (fun line => tellraw w.server.detailSelector line "gray") := by
  induction lines with
  | nil => intro w; simp [announceLines]
  | cons line rest ih =>
    intro w
    simp only [announceLines, List.foldl_cons] at ih ⊢
    rw [ih, Tell_server, Tell_commands]
    simp

/-- The two alert messages of a failed run, none for a successful one. -/
theorem reportFailure_commands (rc : Rcon σ) (proc : Process) (w : World σ) :
    commands (reportFailure rc proc w).trace = commands w.trace ++
      (match proc.err with
        | some e => [tellraw w.server.detailSelector
            ("Failed backup. Exit: " ++ Itoa proc.exitCode) "red",
            tellraw w.server.detailSelector e "red"]
        | none => []) := by
  unfold reportFailure
  cases proc.err with
  | none => simp
  | some e => simp [Tell_commands, Tell_server, logPrintln_commands, logPrintln_server]

theorem reportFailure_server (rc : Rcon σ) (proc : Process) (w : World σ) :
    (reportFailure rc proc w).server = w.server := by
  unfold reportFailure
  cases proc.err with
  | none => rfl
  | some e => simp [Tell_server, logPrintln_server]

theorem BackupStart_server (rc : Rcon σ) (proc : Process) (w : World σ) :
    (BackupStart rc proc w).server = w.server := by
  simp [BackupStart, Tell_server, SetProgress_server, Command_server, logPrintln_server,
    Sleep_server]

theorem BackupStart_commands (rc : Rcon σ) (proc : Process) (w : World σ) :
    ∃ bar1 bar2 : List String,
      commands (BackupStart rc proc w).trace =
        commands w.trace ++ tellraw w.server.detailSelector "Saving Worlds" "gray" :: bar1
          ++ ["save-off", "save-all"]
          ++ tellraw w.server.detailSelector "Running restic" "gray" :: bar2
          ++ [tellraw w.server.detailSelector proc.cmdString "gray"] ∧
      bar1 <+: ["bossbar set backup:active value " ++ Itoa 10,
                "bossbar set backup:active name \"Backup: " ++ "Saving Worlds" ++ "\""] ∧
      bar2 <+: ["bossbar set backup:active value " ++ Itoa 50,
                "bossbar set backup:active name \"Backup: " ++ "Running restic" ++ "\""] ∧
      (w.server.hasBossBar = false → bar1 = [] ∧ bar2 = []) := by
  obtain ⟨bar1, h1, p1, e1⟩ := SetProgress_commands rc "Saving Worlds" 10 w
  obtain ⟨bar2, h2, p2, e2⟩ := SetProgress_commands rc "Running restic" 50
    (Sleep 1000 (Command rc "save-all" (Command rc "save-off"
      (SetProgress rc "Saving Worlds" 10 w).2).2).2)
  refine ⟨bar1, bar2, ?_, p1, p2, fun h => ⟨e1 h, e2 ?_⟩⟩
  · have hx : commands [Event.exec] = [] := rfl
    simp only [BackupStart, commands_append, Tell_commands, Tell_server, logPrintln_commands,
      logPrintln_server, SetProgress_server, h2, Sleep_commands, Sleep_server, Command_server,
      Command_commands, h1, hx]
    simp
  · simpa [Sleep_server, Command_server, SetProgress_server] using h

theorem BackupStart_last_event (rc : Rcon σ) (proc : Process) (w : World σ) :
    (BackupStart rc proc w).trace.getLast? = some Event.exec := by
  simp [BackupStart]

/-- What `Backup` writes once the external process has returned. -/
theorem Backup_after_process (rc : Rcon σ) (proc : Process) (w : World σ) :
    ∃ (last : String) (bar : List String),
      (outputLines proc.out).getLast? = some last ∧
      (Backup rc proc w).1 = Outcome.returned ∧
      (Backup rc proc w).2 = (Command rc "save-on" (SetProgress rc last 100
        (announceLines rc (outputLines proc.out)
          (logPrintln proc.out (reportFailure rc proc (BackupStart rc proc w))))).2).2 ∧
      commands (Backup rc proc w).2.trace =
        commands (BackupStart rc proc w).trace
          ++ (match proc.err with
              | some e => [tellraw w.server.detailSelector
                  ("Failed backup. Exit: " ++ Itoa proc.exitCode) "red",
                  tellraw w.server.detailSelector e "red"]
              | none => [])
          ++ (outputLines proc.out).map (fun line => tellraw w.server.detailSelector line "gray")
          ++ tellraw w.server.detailSelector last "gray" :: bar
          ++ ["save-on"] ∧
      bar <+: ["bossbar set backup:active value " ++ Itoa 100,
               "bossbar set backup:active name \"Backup: " ++ last ++ "\""] ∧
      (w.server.hasBossBar = false → bar = []) := by
  obtain ⟨last, hl, hg⟩ := outputLines_last proc.out
  obtain ⟨bar, hc, hp, he⟩ := SetProgress_commands rc last 100
    (announceLines rc (outputLines proc.out)
      (logPrintln proc.out (reportFailure rc proc (BackupStart rc proc w))))
  have hs : (announceLines rc (outputLines proc.out)
      (logPrintln proc.out (reportFailure rc proc (BackupStart rc proc w)))).server = w.server := by
    rw [announceLines_server]
    simp [logPrintln_server, reportFailure_server, BackupStart_server]
  have hB : Backup rc proc w = (Outcome.returned, (Command rc "save-on" (SetProgress rc last 100
        (announceLines rc (outputLines proc.out)
          (logPrintln proc.out (reportFailure rc proc (BackupStart rc proc w))))).2).2) := by
    simp only [Backup, hl]
  refine ⟨last, bar, hg, by rw [hB], by rw [hB], ?_, hp, fun h => he (by rw [hs]; exact h)⟩
  rw [hB]
  simp only [Command_commands, hc, hs, announceLines_commands]
  simp [logPrintln_commands, logPrintln_server, reportFailure_server, BackupStart_server,
    reportFailure_commands]

theorem tellraw_head (selector message colour : String) :
    (tellraw selector message colour).data.head? = some 't' := by
  rw [tellraw_data]; rfl

theorem not_save_of_head (c : String)
    (h : c.data.head? = some 't' ∨ c.data.head? = some 'b') :
    c ≠ "save-off" ∧ c ≠ "save-all" ∧ c ≠ "save-on" := by
  refine ⟨?_, ?_, ?_⟩ <;> (intro hc; subst hc; revert h; decide)

theorem bar_head (title : String) (value : Int) (bar : List String)
    (h : bar <+: ["bossbar set backup:active value " ++ Itoa value,
                  "bossbar set backup:active name \"Backup: " ++ title ++ "\""]) :
    ∀ c ∈ bar, c.data.head? = some 'b' := by
  intro c hc
  have hm := h.subset hc
  simp only [List.mem_cons, List.mem_singleton, List.not_mem_nil, or_false] at hm
  rcases hm with rfl | rfl <;> simp [String.data_append]

theorem tellraw_gray_ne_red (s m s' m' : String) :
    tellraw s m "gray" ≠ tellraw s' m' "red" := by
  intro h
  have h2 := congrArg (fun x : String => x.data.reverse.take 4) h
  simp [tellraw_data] at h2

theorem ne_tellraw_of_head (c : String) (h : c.data.head? ≠ some 't') (s m col : String) :
    c ≠ tellraw s m col := by
  intro hc; subst hc; exact h (tellraw_head s m col)

theorem TrimSpace_of_all_space (s : String) (h : ∀ c ∈ s.data, isSpace c = true) :
    TrimSpace s = "" := by
  have h1 : s.data.dropWhile isSpace = [] := List.dropWhile_eq_nil_iff.mpr h
  simp [TrimSpace, h1]

/-! ## The claims about the backup sequence -/

/-- C7: once the external process has returned, `Backup` writes (after the two alert
messages of a failed run) one gray `tellraw` to the detail selector for each element of
`Split (TrimSpace output) "\n"`, in order, then calls `SetProgress` with the last element
as title and the value 100, then `save-on`. For the output "line1\nline2\n" the lines are
"line1" and "line2" and the final title is "line2". -/
theorem Backup_announces_output_lines :
    (∀ (σ : Type) (rc : Rcon σ) (proc : Process) (w : World σ),
      ∃ (last : String) (bar : List String),
        (outputLines proc.out).getLast? = some last ∧
        (BackupStart rc proc w).trace.getLast? = some Event.exec ∧
        (Backup rc proc w).2 = (Command rc "save-on" (SetProgress rc last 100
          (announceLines rc (outputLines proc.out)
            (logPrintln proc.out (reportFailure rc proc (BackupStart rc proc w))))).2).2 ∧
        commands (Backup rc proc w).2.trace =
          commands (BackupStart rc proc w).trace
            ++ (match proc.err with
                | some e => [tellraw w.server.detailSelector
                    ("Failed backup. Exit: " ++ Itoa proc.exitCode) "red",
                    tellraw w.server.detailSelector e "red"]
                | none => [])
            ++ (outputLines proc.out).map
                (fun line => tellraw w.server.detailSelector line "gray")
            ++ tellraw w.server.detailSelector last "gray" :: bar
            ++ ["save-on"] ∧
        bar <+: ["bossbar set backup:active value " ++ Itoa 100,
                 "bossbar set backup:active name \"Backup: " ++ last ++ "\""] ∧
        (w.server.hasBossBar = false → bar = [])) ∧
    outputLines "line1\nline2\n" = ["line1", "line2"] ∧
    (outputLines "line1\nline2\n").getLast? = some "line2" ∧
    commands (Backup scripted ⟨"restic backup --files-from .backuplist", "line1\nline2\n", none, 0⟩
        ⟨defaultServer, [], []⟩).2.trace =
      [tellraw "@a[tag=backups]" "Saving Worlds" "gray", "save-off", "save-all",
       tellraw "@a[tag=backups]" "Running restic" "gray",
       tellraw "@a[tag=backups]" "restic backup --files-from .backuplist" "gray",
       tellraw "@a[tag=backups]" "line1" "gray",
       tellraw "@a[tag=backups]" "line2" "gray",
       tellraw "@a[tag=backups]" "line2" "gray",
       "save-on"] := by
  refine ⟨?_, by decide, by decide, by decide⟩
  intro σ rc proc w
  obtain ⟨last, bar, h1, -, h3, h4, h5, h6⟩ := Backup_after_process rc proc w
  exact ⟨last, bar, h1, BackupStart_last_event rc proc w, h3, h4, h5, h6⟩

/-- C8 (counterexample): for the empty output the last line, used as the final progress
title, is the empty string, not a non-empty placeholder: the run ends with the
announcement of the empty line, the progress announcement with the empty title and
`save-on`. -/
theorem Backup_empty_output_reports_empty_title :
    (outputLines "").getLast? = some "" ∧
    (¬ ∃ title, title ≠ "" ∧ (outputLines "").getLast? = some title) ∧
    commands (Backup scripted ⟨"restic backup --files-from .backuplist", "", none, 0⟩
        ⟨defaultServer, [], []⟩).2.trace =
      [tellraw "@a[tag=backups]" "Saving Worlds" "gray", "save-off", "save-all",
       tellraw "@a[tag=backups]" "Running restic" "gray",
       tellraw "@a[tag=backups]" "restic backup --files-from .backuplist" "gray",
       tellraw "@a[tag=backups]" "" "gray",
       tellraw "@a[tag=backups]" "" "gray",
       "save-on"] := by
  refine ⟨by decide, ?_, by decide⟩
  rintro ⟨title, hne, hl⟩
  have h0 : (outputLines "").getLast? = some "" := by decide
  rw [h0] at hl
  exact hne (Option.some.inj hl).symm

/-- C8 (amended): the lines of the output are never an empty sequence, so the index
`len(lines)-1` is in bounds and `Backup` returns without a panic, ending with
`SetProgress` of the last line at 100 and `save-on`; for an output that is empty or
only white space the lines are the single empty line and the final title is the empty
string. -/
theorem Backup_empty_output_no_fault (rc : Rcon σ) (proc : Process) (w : World σ) :
    outputLines proc.out ≠ [] ∧
    (outputLines proc.out).length - 1 < (outputLines proc.out).length ∧
    (Backup rc proc w).1 = Outcome.returned ∧
    (∃ last, (outputLines proc.out)[(outputLines proc.out).length - 1]? = some last ∧
      (Backup rc proc w).2 = (Command rc "save-on" (SetProgress rc last 100
        (announceLines rc (outputLines proc.out)
          (logPrintln proc.out (reportFailure rc proc (BackupStart rc proc w))))).2).2) ∧
    ((∀ c ∈ proc.out.data, isSpace c = true) →
      outputLines proc.out = [""] ∧
      (Backup rc proc w).2 = (Command rc "save-on" (SetProgress rc "" 100
        (announceLines rc [""]
          (logPrintln proc.out (reportFailure rc proc (BackupStart rc proc w))))).2).2) := by
  have hne := outputLines_ne_nil proc.out
  obtain ⟨last, bar, h1, h2, h3, -⟩ := Backup_after_process rc proc w
  refine ⟨hne, ?_, h2, ⟨last, ?_, h3⟩, ?_⟩
  · have := List.length_pos.mpr hne
    omega
  · rw [← List.getLast?_eq_getElem?]; exact h1
  · intro hs
    have hl : outputLines proc.out = [""] := by
      simp only [outputLines, TrimSpace_of_all_space proc.out hs]
      decide
    rw [hl] at h1 h3
    have : last = "" := by simpa using h1.symm
    subst this
    exact ⟨hl, h3⟩

theorem Backup_empty_output_no_fault_witness :
    (∀ c ∈ (" \n\t" : String).data, isSpace c = true) ∧
    outputLines " \n\t" = [""] ∧
    (Backup scripted ⟨"restic backup --files-from .backuplist", " \n\t", none, 0⟩
      ⟨defaultServer, [], []⟩).1 = Outcome.returned :=
  ⟨by decide,
   ((Backup_empty_output_no_fault scripted
      ⟨"restic backup --files-from .backuplist", " \n\t", none, 0⟩
      ⟨defaultServer, [], []⟩).2.2.2.2 (by decide)).1,
   (Backup_empty_output_no_fault scripted
      ⟨"restic backup --files-from .backuplist", " \n\t", none, 0⟩
      ⟨defaultServer, [], []⟩).2.2.1⟩

/-- C9: whatever the transport and the external process do, `Backup` returns, and what it
writes is some display commands, `save-off`, `save-all`, more display commands and last
`save-on`; none of the display commands is one of the three save commands, so each of
these is written exactly once. -/
theorem Backup_save_on_exactly_once (rc : Rcon σ) (proc : Process) (w : World σ) :
    (Backup rc proc w).1 = Outcome.returned ∧
    ∃ sent pre mid : List String,
      commands (Backup rc proc w).2.trace = commands w.trace ++ sent ∧
      sent = pre ++ ["save-off", "save-all"] ++ mid ++ ["save-on"] ∧
      (∀ c ∈ pre ++ mid, c ≠ "save-off" ∧ c ≠ "save-all" ∧ c ≠ "save-on") ∧
      sent.count "save-off" = 1 ∧ sent.count "save-all" = 1 ∧ sent.count "save-on" = 1 ∧
      sent.getLast? = some "save-on" := by
  obtain ⟨last, bar3, -, hr, -, hc, hp3, -⟩ := Backup_after_process rc proc w
  obtain ⟨bar1, bar2, hs, hp1, hp2, -⟩ := BackupStart_commands rc proc w
  have hd : ∀ c ∈ (tellraw w.server.detailSelector "Saving Worlds" "gray" :: bar1) ++
      (tellraw w.server.detailSelector "Running restic" "gray" :: bar2
        ++ [tellraw w.server.detailSelector proc.cmdString "gray"]
        ++ (match proc.err with
            | some e => [tellraw w.server.detailSelector
                ("Failed backup. Exit: " ++ Itoa proc.exitCode) "red",
                tellraw w.server.detailSelector e "red"]
            | none => [])
        ++ (outputLines proc.out).map (fun line => tellraw w.server.detailSelector line "gray")
        ++ tellraw w.server.detailSelector last "gray" :: bar3),
      c ≠ "save-off" ∧ c ≠ "save-all" ∧ c ≠ "save-on" := by
    intro c hm
    apply not_save_of_head
    simp only [List.mem_append, List.mem_cons, List.mem_map, List.mem_singleton,
      List.not_mem_nil, or_false] at hm
    rcases hm with (rfl | hm) | (((((rfl | hm) | rfl) | hm) | ⟨l, -, rfl⟩) | (rfl | hm))
    · exact Or.inl (tellraw_head _ _ _)
    · exact Or.inr (bar_head _ _ _ hp1 c hm)
    · exact Or.inl (tellraw_head _ _ _)
    · exact Or.inr (bar_head _ _ _ hp2 c hm)
    · exact Or.inl (tellraw_head _ _ _)
    · cases he : proc.err with
      | none => rw [he] at hm; cases hm
      | some e =>
        rw [he] at hm
        simp only [List.mem_cons, List.mem_singleton, List.not_mem_nil, or_false] at hm
        rcases hm with rfl | rfl <;> exact Or.inl (tellraw_head _ _ _)
    · exact Or.inl (tellraw_head _ _ _)
    · exact Or.inl (tellraw_head _ _ _)
    · exact Or.inr (bar_head _ _ _ hp3 c hm)
  refine ⟨hr, _, _, _, ?_, rfl, hd, ?_, ?_, ?_, List.getLast?_concat _⟩
  · rw [hc, hs]; simp
  · rw [List.count_append, List.count_append, List.count_append]
    rw [List.count_eq_zero.mpr (fun hm => (hd _ (List.mem_append_left _ hm)).1 rfl),
      List.count_eq_zero.mpr (fun hm => (hd _ (List.mem_append_right _ hm)).1 rfl)]
    decide
  · rw [List.count_append, List.count_append, List.count_append]
    rw [List.count_eq_zero.mpr (fun hm => (hd _ (List.mem_append_left _ hm)).2.1 rfl),
      List.count_eq_zero.mpr (fun hm => (hd _ (List.mem_append_right _ hm)).2.1 rfl)]
    decide
  · rw [List.count_append, List.count_append, List.count_append]
    rw [List.count_eq_zero.mpr (fun hm => (hd _ (List.mem_append_left _ hm)).2.2 rfl),
      List.count_eq_zero.mpr (fun hm => (hd _ (List.mem_append_right _ hm)).2.2 rfl)]
    decide

/-- C10: after a failed run of the process with exit code `c` and error text `e`, `Backup`
writes to the detail selector the red message "Failed backup. Exit: c", the red message
`e`, then the output lines, the final progress at 100 and `save-on`; after a successful
run no command it writes is a red `tellraw`. With a transport that accepts everything
and a process exiting 1 with output "error: repo locked" exactly two red messages are
written, between `save-off` and `save-on`. -/
theorem Backup_reports_failure :
    (∀ (σ : Type) (rc : Rcon σ) (proc : Process) (w : World σ),
      (∀ e, proc.err = some e →
        ∃ (last : String) (bar : List String),
          (outputLines proc.out).getLast? = some last ∧
          commands (Backup rc proc w).2.trace =
            commands (BackupStart rc proc w).trace
              ++ [tellraw w.server.detailSelector
                    ("Failed backup. Exit: " ++ Itoa proc.exitCode) "red",
                  tellraw w.server.detailSelector e "red"]
              ++ (outputLines proc.out).map
                  (fun line => tellraw w.server.detailSelector line "gray")
              ++ tellraw w.server.detailSelector last "gray" :: bar
              ++ ["save-on"] ∧
          bar <+: ["bossbar set backup:active value " ++ Itoa 100,
                   "bossbar set backup:active name \"Backup: " ++ last ++ "\""]) ∧
      (proc.err = none →
        ∀ sent, commands (Backup rc proc w).2.trace = commands w.trace ++ sent →
          ∀ c ∈ sent, ∀ selector message, c ≠ tellraw selector message "red")) ∧
    commands (Backup scripted
        ⟨"restic backup --files-from .backuplist", "error: repo locked", some "exit status 1", 1⟩
        ⟨defaultServer, [], []⟩).2.trace =
      [tellraw "@a[tag=backups]" "Saving Worlds" "gray", "save-off", "save-all",
       tellraw "@a[tag=backups]" "Running restic" "gray",
       tellraw "@a[tag=backups]" "restic backup --files-from .backuplist" "gray",
       tellraw "@a[tag=backups]" "Failed backup. Exit: 1" "red",
       tellraw "@a[tag=backups]" "exit status 1" "red",
       tellraw "@a[tag=backups]" "error: repo locked" "gray",
       tellraw "@a[tag=backups]" "error: repo locked" "gray",
       "save-on"] := by
  refine ⟨?_, by decide⟩
  intro σ rc proc w
  obtain ⟨last, bar3, hl, -, -, hc, hp3, -⟩ := Backup_after_process rc proc w
  refine ⟨?_, ?_⟩
  · intro e he
    rw [he] at hc
    exact ⟨last, bar3, hl, hc, hp3⟩
  · intro he sent hsent c hm selector message
    obtain ⟨bar1, bar2, hs, hp1, hp2, -⟩ := BackupStart_commands rc proc w
    rw [he, hs] at hc
    rw [hc] at hsent
    simp only [List.append_assoc] at hsent
    have hsent := (List.append_cancel_left hsent).symm
    subst hsent
    have hb : ∀ x : String, x.data.head? = some 'b' → x ≠ tellraw selector message "red" :=
      fun x hx => ne_tellraw_of_head x (by rw [hx]; decide) _ _ _
    simp only [List.mem_append, List.mem_cons, List.mem_map, List.mem_singleton,
      List.not_mem_nil, or_false, false_or] at hm
    rcases hm with (rfl | hm) | (rfl | rfl) | (rfl | hm) | rfl | ⟨l, -, rfl⟩ | ((rfl | hm) | rfl)
    · exact tellraw_gray_ne_red _ _ _ _
    · exact hb _ (bar_head _ _ _ hp1 c hm)
    · exact ne_tellraw_of_head _ (by decide) _ _ _
    · exact ne_tellraw_of_head _ (by decide) _ _ _
    · exact tellraw_gray_ne_red _ _ _ _
    · exact hb _ (bar_head _ _ _ hp2 c hm)
    · exact tellraw_gray_ne_red _ _ _ _
    · exact tellraw_gray_ne_red _ _ _ _
    · exact tellraw_gray_ne_red _ _ _ _
    · exact hb _ (bar_head _ _ _ hp3 c hm)
    · exact ne_tellraw_of_head _ (by decide) _ _ _

end MinecraftBackup
